import Mathlib

/-!
Shallow embedding of the `uniswap_swap_monitor` crate (`src/lib.rs`): a
pipeline that subscribes to `Swap` events of one pool contract, ABI-decodes
each event payload as the tuple `(int256, int256, uint160, uint128, int24)`,
and appends one row per event to a SQLite table.

Bytes are modelled as naturals `< 256`, 32-byte words and hashes as naturals
`< 2 ^ 256`, addresses as naturals `< 2 ^ 160`.  Rust `I256`/`i32` values are
modelled as `Int` via two's complement on the word read from the payload,
mirroring `ethers`' tokenizer (`low_u128` truncation, then an `as` cast for
`i32`).  Fallible Rust operations (`?`, `unwrap`) become `Option`/sum types.
-/

namespace SwapMonitor

/-- Big-endian value of a byte slice, as in `U256::from_big_endian`. -/
def wordVal (bs : List Nat) : Nat :=
  bs.foldl (fun a b => a * 256 + b) 0

/-- `peek_32_bytes` of the `ethabi` decoder: the 32-byte slice of `data`
starting at `offset`, or `none` when fewer than 32 bytes remain. -/
def peek32Bytes (data : List Nat) (offset : Nat) : Option (List Nat) :=
  if offset + 32 ≤ data.length then some ((data.drop offset).take 32) else none

/-- A 256-bit word reinterpreted as a signed two's-complement integer,
as `I256::from_raw` exposes it through `Display`. -/
def asI256 (v : Nat) : Int :=
  if v < 2 ^ 255 then (v : Int) else (v : Int) - 2 ^ 256

/-- `U256::low_u128`: the low 128 bits of a word. -/
def lowU128 (v : Nat) : Nat := v % 2 ^ 128

/-- The `ethers` tokenizer for `i32`: `data.low_u128() as i32`, i.e. the low
32 bits of the word read as two's complement. -/
def asI32 (v : Nat) : Int :=
  let t : Nat := lowU128 v % 2 ^ 32
  if t < 2 ^ 31 then (t : Int) else (t : Int) - 2 ^ 32

/-- The `LogData` struct: the five decoded payload fields. -/
structure LogData where
  amount0 : Int
  amount1 : Int
  sqrt_price : Nat
  liquidity : Nat
  tick : Int
deriving Repr, DecidableEq

/-- `decode_log_data`: ABI-decode of the tuple
`(I256, I256, U256, u128, i32)`.  All five components are static, so the
`ethabi` decoder reads the five 32-byte words at offsets 0, 32, 64, 96, 128
and fails (`DecodeError`, modelled as `none`) exactly when one of those reads
runs past the end of the buffer; bytes beyond offset 160 are ignored. -/
def decode_log_data (data : List Nat) : Option LogData :=
  match peek32Bytes data 0, peek32Bytes data 32, peek32Bytes data 64,
        peek32Bytes data 96, peek32Bytes data 128 with
  | some w0, some w1, some w2, some w3, some w4 =>
      some { amount0 := asI256 (wordVal w0)
             amount1 := asI256 (wordVal w1)
             sqrt_price := wordVal w2
             liquidity := lowU128 (wordVal w3)
             tick := asI32 (wordVal w4) }
  | _, _, _, _, _ => none

/-- `Address::from(h : H256)`: the last 20 of the 32 bytes, i.e. the value
modulo `2 ^ 160`. -/
def addressFromH256 (t : Nat) : Nat := t % 2 ^ 160

/-- The `CombinedLog` struct. -/
structure CombinedLog where
  tx_hash : Nat
  sender : Nat
  receiver : Nat
  data : LogData
deriving Repr, DecidableEq

/-- `CombinedLog::new`: a missing transaction hash defaults to the all-zero
hash (`Option::unwrap_or_default`). -/
def CombinedLog.new (tx_hash : Option Nat) (sender receiver : Nat)
    (data : LogData) : CombinedLog :=
  { tx_hash := tx_hash.getD 0, sender := sender, receiver := receiver
    data := data }

/-- Lowercase hexadecimal digit. -/
def hexDigitChar (n : Nat) : Char :=
  if n < 10 then Char.ofNat (48 + n) else Char.ofNat (87 + n)

/-- `width` lowercase hex digits of `n`, most significant first, zero-padded
— the fixed-width `LowerHex` rendering of `H160`/`H256`. -/
def toHexCore : Nat → Nat → List Char → List Char
  | 0, _, acc => acc
  | k + 1, n, acc => toHexCore k (n / 16) (hexDigitChar (n % 16) :: acc)

/-- `format!` with `:#x` on a fixed-width hash type: `0x` followed by exactly
`width` lowercase hex digits. -/
def formatHex (width n : Nat) : String :=
  "0x" ++ String.mk (toHexCore width n [])

/-- Decimal digits of a natural, as Rust's integer `Display`. -/
def natDecCore : Nat → Nat → List Char → List Char
  | 0, _, acc => acc
  | fuel + 1, n, acc =>
      let c := Char.ofNat (48 + n % 10)
      if n < 10 then c :: acc else natDecCore fuel (n / 10) (c :: acc)

/-- Base-10 rendering of a natural number. -/
def natToDecString (n : Nat) : String := String.mk (natDecCore (n + 1) n [])

/-- Base-10 rendering of an integer, `-`-signed — `I256`/`i32` `Display`. -/
def intToDecString (i : Int) : String :=
  if i < 0 then "-" ++ natToDecString i.natAbs else natToDecString i.natAbs

/-- One persisted row of the `logs` table: seven TEXT columns and the native
INTEGER `tick` column. -/
structure Row where
  tx_hash : String
  sender_address : String
  receiver_address : String
  amount0 : String
  amount1 : String
  sqrt_price : String
  liquidity : String
  tick : Int
deriving Repr, DecidableEq

/-- The row `insert_log` binds: hashes/addresses via `format!` `:#x`,
the four big integers via `to_string`, `tick` as a native integer. -/
def rowOfCombinedLog (c : CombinedLog) : Row :=
  { tx_hash := formatHex 64 c.tx_hash
    sender_address := formatHex 40 c.sender
    receiver_address := formatHex 40 c.receiver
    amount0 := intToDecString c.data.amount0
    amount1 := intToDecString c.data.amount1
    sqrt_price := natToDecString c.data.sqrt_price
    liquidity := natToDecString c.data.liquidity
    tick := c.data.tick }

/-- `insert_log`: appends the serialized row to the `logs` table
(modelled as the list of rows in insertion order). -/
def insert_log (table : List Row) (c : CombinedLog) : List Row :=
  table ++ [rowOfCombinedLog c]

/-- `print_log`: the human-readable trace line of one stored event. -/
def print_log (c : CombinedLog) (d : LogData) : String :=
  "new | tx_hash: " ++ formatHex 64 c.tx_hash ++
  ", sender: " ++ formatHex 40 c.sender ++
  ", receiver: " ++ formatHex 40 c.receiver ++
  ", amount0: " ++ intToDecString d.amount0 ++
  ", amount1: " ++ intToDecString d.amount1 ++
  ", sqrt_price: " ++ natToDecString d.sqrt_price ++
  ", liquidity: " ++ natToDecString d.liquidity ++
  ", tick: " ++ intToDecString d.tick

/-- An inbound `ethers` `Log`: the topic words, the payload bytes, the
optional transaction hash, and block metadata the pipeline never reads. -/
structure Log where
  address : Nat
  topics : List Nat
  data : List Nat
  transaction_hash : Option Nat
  block_number : Option Nat
  log_index : Option Nat
deriving Repr, DecidableEq

/-- Outcome of `process_log` on one event: a stored row plus its trace line,
a decode failure (`?` on `decode_log_data`), or the out-of-bounds access of
`log.topics[1]` / `log.topics[2]` on a short topic list. -/
inductive ProcOutcome where
  | ok (row : Row) (trace : String)
  | decodeErr
  | indexOutOfBounds
deriving Repr, DecidableEq

/-- `process_log`: decode the payload first (`?`), then index `topics[1]` and
`topics[2]` positionally, build the `CombinedLog`, insert the row, trace. -/
def process_log (log : Log) : ProcOutcome :=
  match decode_log_data log.data with
  | none => ProcOutcome.decodeErr
  | some d =>
    match log.topics.get? 1, log.topics.get? 2 with
    | some t1, some t2 =>
        let c := CombinedLog.new log.transaction_hash (addressFromH256 t1)
          (addressFromH256 t2) d
        ProcOutcome.ok (rowOfCombinedLog c) (print_log c d)
    | _, _ => ProcOutcome.indexOutOfBounds

/-- The row stored for a log, when processing it succeeds. -/
def rowOfLog (log : Log) : Option Row :=
  match process_log log with
  | ProcOutcome.ok row _ => some row
  | _ => none

/-- `handle_logs`: the ingestion loop over the (finite prefix of the)
subscription stream.  Events are consumed strictly in order; the first
non-`ok` outcome stops the loop, is returned to the caller (`some e`), and no
later event is touched; exhausting the stream returns `none` (normal end). -/
def handle_logs : List Log → List Row → List Row × Option ProcOutcome
  | [], table => (table, none)
  | log :: rest, table =>
    match process_log log with
    | ProcOutcome.ok row _ => handle_logs rest (table ++ [row])
    | e => (table, some e)

/-- A subscription filter: the address list and the event signature it is
scoped to (`Filter::new().address(vec![a]).event(sig)`). -/
structure Filter where
  address : List Nat
  event : String
deriving Repr, DecidableEq

/-- Hex digit test of the `rustc_hex` byte decoder. -/
def isHexDigitChar (c : Char) : Bool :=
  ('0' ≤ c ∧ c ≤ '9') ∨ ('a' ≤ c ∧ c ≤ 'f') ∨ ('A' ≤ c ∧ c ≤ 'F')

/-- Value of one hex digit. -/
def hexCharVal (c : Char) : Nat :=
  if '0' ≤ c ∧ c ≤ '9' then c.toNat - 48
  else if 'a' ≤ c ∧ c ≤ 'f' then c.toNat - 87
  else if 'A' ≤ c ∧ c ≤ 'F' then c.toNat - 55
  else 0

/-- Strip one leading `0x`, as `H160`/`H256` `from_str` does. -/
def strip0x : List Char → List Char
  | '0' :: 'x' :: rest => rest
  | cs => cs

/-- Whitespace the `rustc_hex` decoder skips. -/
def isHexWhitespace (c : Char) : Bool :=
  c = ' ' ∨ c = Char.ofNat 13 ∨ c = Char.ofNat 10 ∨ c = Char.ofNat 9

/-- `Address::from_str` (fixed-hash `FromStr` via `rustc_hex`): strip an
optional `0x`, skip whitespace; exactly 40 hex digits must remain, else the
parse fails (`none`).  The value is the big-endian 160-bit number. -/
def Address.from_str (s : String) : Option Nat :=
  let cs := (strip0x s.toList).filter (fun c => !isHexWhitespace c)
  if cs.length = 40 ∧ cs.all isHexDigitChar then
    some (cs.foldl (fun a c => a * 16 + hexCharVal c) 0)
  else none

/-- `create_pool_filter`: `Address::from_str(contract_address).unwrap()`
aborts (`none`) on a bad address; otherwise the filter is scoped to exactly
that address and the fixed `Swap` event signature. -/
def create_pool_filter (contract_address : String) : Option Filter :=
  match Address.from_str contract_address with
  | none => none
  | some a =>
      some { address := [a]
             event := "Swap(address,address,int256,int256,uint160,uint128,int24)" }

/-- Byte list of an even run of hex digits. -/
def bytesOfHexChars : List Char → List Nat
  | c1 :: c2 :: rest => (hexCharVal c1 * 16 + hexCharVal c2) :: bytesOfHexChars rest
  | _ => []

/-- Byte string of a `0x`-prefixed hex literal. -/
def hexStrToBytes (s : String) : List Nat := bytesOfHexChars (strip0x s.toList)

/-- 256-bit word value of a `0x`-prefixed hex literal. -/
def hexStrToNat (s : String) : Nat := wordVal (hexStrToBytes s)

/-- The fixture payload of `create_test_transaction_vals`. -/
def fixturePayload : List Nat := hexStrToBytes "0xfffffffffffffffffffffffffffffffffffffffffffffffffffffffff0511b800000000000000000000000000000000000000000000000000240e540e2dc0042000000000000000000000000000000000000610413a1a7c814aa98ca36d09f8b000000000000000000000000000000000000000000000001c4846addbd259faf00000000000000000000000000000000000000000000000000000000000316ab"

/-- Fixture topic 1 (padded sender address). -/
def fixtureTopic1 : Nat := hexStrToNat "0x000000000000000000000000e592427a0aece92de3edee1f18e0157c05861564"

/-- Fixture topic 2 (padded receiver address). -/
def fixtureTopic2 : Nat := hexStrToNat "0x0000000000000000000000004b7d6c3cea01f4d54a9cad6587da106ea39da1e6"

/-- Fixture topic 0 (event-signature hash). -/
def fixtureTopic0 : Nat := hexStrToNat "0xc42079f94a6350d7e6235f29174924f928cc2ac818eb64fed8004e115fbcca67"

/-- Fixture transaction hash. -/
def fixtureTxHash : Nat := hexStrToNat "0xe92955b4c46b38de18c1cdd58b06d49d45d6f9ca0906a86918f4cf20650683b4"

/-- The test `Log` of `create_test_log`. -/
def fixtureLog : Log :=
  { address := 0
    topics := [fixtureTopic0, fixtureTopic1, fixtureTopic2]
    data := fixturePayload
    transaction_hash := some fixtureTxHash
    block_number := none
    log_index := none }

/-- The decoded fixture payload. -/
def fixtureLogData : LogData :=
  { amount0 := -263120000
    amount1 := 162381653432074306
    sqrt_price := 1967716719848838692609454179917707
    liquidity := 32607304702662909871
    tick := 202411 }

/-- The `CombinedLog` built from the fixture log. -/
def fixtureCombined : CombinedLog :=
  CombinedLog.new (some fixtureTxHash) (addressFromH256 fixtureTopic1)
    (addressFromH256 fixtureTopic2) fixtureLogData

/-- The fixture log with its transaction hash absent. -/
def fixtureLogNoHash : Log := { fixtureLog with transaction_hash := none }

/-- The `CombinedLog` built from `fixtureLogNoHash`. -/
def fixtureCombinedNoHash : CombinedLog :=
  CombinedLog.new none (addressFromH256 fixtureTopic1)
    (addressFromH256 fixtureTopic2) fixtureLogData

/-- A log whose payload is empty, hence undecodable. -/
def badLog : Log := { fixtureLog with data := [] }

/-- A log carrying only the signature topic. -/
def shortTopicsLog : Log := { fixtureLog with topics := [fixtureTopic0] }

/-- A payload longer than the 160 bytes the tuple occupies. -/
def longPayload : List Nat := fixturePayload ++ List.replicate 32 0

/-- The fixture log with different signature topic, emitting address and
block metadata, but the same `topics[1]`, `topics[2]`, hash and payload. -/
def fixtureLogAltMeta : Log :=
  { address := 7
    topics := [0, fixtureTopic1, fixtureTopic2]
    data := fixturePayload
    transaction_hash := some fixtureTxHash
    block_number := some 123
    log_index := some 4 }

/-- A successfully processed log yields `ok` of its row. -/
theorem rowOfLog_eq_some {log : Log} {row : Row} (h : rowOfLog log = some row) :
    ∃ tr, process_log log = ProcOutcome.ok row tr := by
  unfold rowOfLog at h
  cases hp : process_log log with
  | ok r t => rw [hp] at h; exact ⟨t, by simp_all⟩
  | decodeErr => rw [hp] at h; simp at h
  | indexOutOfBounds => rw [hp] at h; simp at h

/-- A log that is not skipped by `rowOfLog` has an `ok` outcome. -/
theorem rowOfLog_ne_none {log : Log} (h : rowOfLog log ≠ none) :
    ∃ row tr, process_log log = ProcOutcome.ok row tr := by
  cases hr : rowOfLog log with
  | none => exact absurd hr h
  | some row => exact ⟨row, rowOfLog_eq_some hr⟩

set_option maxRecDepth 10000

/-- C1: decoding the fixture payload yields exactly
amount0 = -263120000, amount1 = 162381653432074306,
sqrtPrice = 1967716719848838692609454179917707,
liquidity = 32607304702662909871, tick = 202411, and storing the resulting
record appends one row whose `amount0`, `amount1`, `sqrt_price` and
`liquidity` text columns are those base-10 decimal strings (sign included)
and whose `tick` column is the native integer 202411. -/
theorem C1_fixture_decode_and_store :
    decode_log_data fixturePayload = some fixtureLogData ∧
    insert_log [] fixtureCombined = [rowOfCombinedLog fixtureCombined] ∧
    (rowOfCombinedLog fixtureCombined).amount0 = "-263120000" ∧
    (rowOfCombinedLog fixtureCombined).amount1 = "162381653432074306" ∧
    (rowOfCombinedLog fixtureCombined).sqrt_price =
      "1967716719848838692609454179917707" ∧
    (rowOfCombinedLog fixtureCombined).liquidity = "32607304702662909871" ∧
    (rowOfCombinedLog fixtureCombined).tick = 202411 := by
  refine ⟨by decide, rfl, by decide, by decide, by decide, by decide, by decide⟩

/-- C2 counterexample: the claim "every payload whose length differs from the
fixed 160-byte tuple length fails to decode" is false: the `ethabi` decoder
ignores trailing bytes, so a 192-byte payload decodes successfully. -/
theorem C2_counterexample :
    ¬ (∀ data : List Nat, data.length ≠ 160 → decode_log_data data = none) :=
  fun h => absurd (h longPayload (by decide)) (by decide)

/-- C2 (amended): every payload shorter than the fixed 160-byte tuple length
fails to decode as a unit (`none`), never yielding a partial record; a
payload of at least 160 bytes is decoded from its first 160 bytes with any
trailing bytes ignored. -/
theorem C2_short_payload_fails (data : List Nat) (h : data.length < 160) :
    decode_log_data data = none ∧
    (∀ extra : List Nat,
      decode_log_data (data ++ extra) =
        decode_log_data ((data ++ extra).take 160)) := by
  constructor
  · have h128 : peek32Bytes data 128 = none := by
      unfold peek32Bytes
      rw [if_neg (by omega)]
    unfold decode_log_data
    rw [h128]
    rcases peek32Bytes data 0 with _ | w0 <;>
      rcases peek32Bytes data 32 with _ | w1 <;>
        rcases peek32Bytes data 64 with _ | w2 <;>
          rcases peek32Bytes data 96 with _ | w3 <;> rfl
  · intro extra
    have hpeek : ∀ off, off + 32 ≤ 160 →
        peek32Bytes (data ++ extra) off =
          peek32Bytes ((data ++ extra).take 160) off := by
      intro off hoff
      unfold peek32Bytes
      by_cases hlen : off + 32 ≤ (data ++ extra).length
      · rw [if_pos hlen, if_pos (by rw [List.length_take]; omega)]
        rw [List.drop_take, List.take_take]
        have hmin : min 32 (160 - off) = 32 := by omega
        rw [hmin]
      · rw [if_neg hlen, if_neg (by rw [List.length_take]; omega)]
    unfold decode_log_data
    rw [hpeek 0 (by omega), hpeek 32 (by omega), hpeek 64 (by omega),
        hpeek 96 (by omega), hpeek 128 (by omega)]

/-- Witness for C2 (amended) at the empty payload and the fixture payload. -/
theorem C2_witness :
    decode_log_data [] = none ∧
    decode_log_data ([] ++ longPayload) =
      decode_log_data (([] ++ longPayload).take 160) :=
  ⟨(C2_short_payload_fails [] (by decide)).1,
   (C2_short_payload_fails [] (by decide)).2 longPayload⟩

/-- C3: whenever an event with topics `topics[1] = t1`, `topics[2] = t2`
is processed into a stored row, the row's `sender_address` and
`receiver_address` columns are the `0x`-prefixed lowercase 40-hex-digit
renderings of the 20-byte addresses `t1 mod 2^160` and `t2 mod 2^160`
(the topics' padding beyond address width stripped). -/
theorem C3_addresses_from_topics (log : Log) (t1 t2 : Nat)
    (ht1 : log.topics.get? 1 = some t1) (ht2 : log.topics.get? 2 = some t2)
    (row : Row) (tr : String)
    (hok : process_log log = ProcOutcome.ok row tr) :
    row.sender_address = "0x" ++ String.mk (toHexCore 40 (t1 % 2 ^ 160) []) ∧
    row.receiver_address = "0x" ++ String.mk (toHexCore 40 (t2 % 2 ^ 160) []) := by
  unfold process_log at hok
  cases hd : decode_log_data log.data with
  | none => rw [hd] at hok; exact absurd hok (by simp)
  | some d =>
    rw [hd, ht1, ht2] at hok
    simp only [] at hok
    injection hok with hrow htr
    subst hrow
    exact ⟨rfl, rfl⟩

/-- Witness for C3 at the fixture log. -/
theorem C3_witness :
    (rowOfCombinedLog fixtureCombined).sender_address =
      "0x" ++ String.mk (toHexCore 40 (fixtureTopic1 % 2 ^ 160) []) ∧
    (rowOfCombinedLog fixtureCombined).receiver_address =
      "0x" ++ String.mk (toHexCore 40 (fixtureTopic2 % 2 ^ 160) []) :=
  C3_addresses_from_topics fixtureLog fixtureTopic1 fixtureTopic2 rfl rfl
    (rowOfCombinedLog fixtureCombined)
    (print_log fixtureCombined fixtureLogData) (by decide)

/-- C4: an event with an absent transaction hash is processed without error
into a row whose `tx_hash` column is the `0x`-prefixed lowercase hex of the
all-zero 32-byte hash — not the empty string (and not null: the column is a
total `String`). -/
theorem C4_missing_hash_all_zero (log : Log)
    (hnone : log.transaction_hash = none) (row : Row) (tr : String)
    (hok : process_log log = ProcOutcome.ok row tr) :
    row.tx_hash =
      "0x0000000000000000000000000000000000000000000000000000000000000000" ∧
    row.tx_hash ≠ "" := by
  unfold process_log at hok
  cases hd : decode_log_data log.data with
  | none => rw [hd] at hok; exact absurd hok (by simp)
  | some d =>
    rw [hd] at hok
    cases ht1 : log.topics.get? 1 with
    | none => rw [ht1] at hok; exact absurd hok (by simp)
    | some t1 =>
      cases ht2 : log.topics.get? 2 with
      | none => rw [ht1, ht2] at hok; exact absurd hok (by simp)
      | some t2 =>
        rw [ht1, ht2] at hok
        simp only [] at hok
        injection hok with hrow htr
        subst hrow
        rw [hnone]
        constructor
        · show formatHex 64 (Option.getD none 0) =
            "0x0000000000000000000000000000000000000000000000000000000000000000"
          decide
        · show formatHex 64 (Option.getD none 0) ≠ ""
          decide

/-- Witness for C4 at the fixture log with its hash removed. -/
theorem C4_witness :
    (rowOfCombinedLog fixtureCombinedNoHash).tx_hash =
      "0x0000000000000000000000000000000000000000000000000000000000000000" ∧
    (rowOfCombinedLog fixtureCombinedNoHash).tx_hash ≠ "" :=
  C4_missing_hash_all_zero fixtureLogNoHash rfl
    (rowOfCombinedLog fixtureCombinedNoHash)
    (print_log fixtureCombinedNoHash fixtureLogData) (by decide)

/-- C5: a contract-address string that does not parse as a 20-byte hex
address makes the filter builder fail (the `unwrap` aborts, modelled as
`none`); a string that parses to address `a` yields the filter scoped to
exactly `[a]` and the fixed `Swap` event signature. -/
theorem C5_pool_filter (s : String) :
    (Address.from_str s = none → create_pool_filter s = none) ∧
    ∀ a, Address.from_str s = some a →
      create_pool_filter s =
        some { address := [a]
               event := "Swap(address,address,int256,int256,uint160,uint128,int24)" } := by
  constructor
  · intro h
    unfold create_pool_filter
    rw [h]
  · intro a h
    unfold create_pool_filter
    rw [h]

/-- Witness for C5: a valid address and a malformed one. -/
theorem C5_witness :
    create_pool_filter "0xe592427a0aece92de3edee1f18e0157c05861564" =
      some { address := [0xe592427a0aece92de3edee1f18e0157c05861564]
             event := "Swap(address,address,int256,int256,uint160,uint128,int24)" } ∧
    create_pool_filter "not-an-address" = none :=
  ⟨(C5_pool_filter "0xe592427a0aece92de3edee1f18e0157c05861564").2
      0xe592427a0aece92de3edee1f18e0157c05861564 (by decide),
   (C5_pool_filter "not-an-address").1 (by decide)⟩

/-- C6: once one event fails (decode failure or topic out-of-bounds), the
loop stops there: the table holds exactly the rows of the preceding events,
the failure itself is propagated to the caller, and the events after the
failing one are never processed (the result does not depend on them). -/
theorem C6_failure_ends_run (pre : List Log) (bad : Log) (post : List Log)
    (table : List Row) (hpre : ∀ l ∈ pre, rowOfLog l ≠ none)
    (hbad : rowOfLog bad = none) :
    handle_logs (pre ++ bad :: post) table =
      (table ++ pre.filterMap rowOfLog, some (process_log bad)) := by
  induction pre generalizing table with
  | nil =>
    simp only [List.nil_append, List.filterMap_nil, List.append_nil]
    unfold handle_logs
    cases hp : process_log bad with
    | ok r t => unfold rowOfLog at hbad; rw [hp] at hbad; simp at hbad
    | decodeErr => rfl
    | indexOutOfBounds => rfl
  | cons l pre ih =>
    obtain ⟨row, tr, hp⟩ := rowOfLog_ne_none (hpre l (by simp))
    have hrl : rowOfLog l = some row := by unfold rowOfLog; rw [hp]
    simp only [List.cons_append]
    unfold handle_logs
    simp only [hp]
    rw [ih (table ++ [row]) (fun x hx => hpre x (List.mem_cons_of_mem l hx))]
    simp only [List.filterMap_cons, hrl]
    simp [List.append_assoc]

/-- Witness for C6: one good event, one undecodable event, one trailing
event that is never reached. -/
theorem C6_witness :
    handle_logs [fixtureLog, badLog, fixtureLogNoHash] [] =
      ([rowOfCombinedLog fixtureCombined], some ProcOutcome.decodeErr) :=
  C6_failure_ends_run [fixtureLog] badLog [fixtureLogNoHash] []
    (by decide) (by decide)

/-- C7: an event whose payload fails to decode is reported as `decodeErr`
and inserts nothing: the loop run starting at that event leaves the table
exactly as it was and terminates with the error. -/
theorem C7_decode_failure_inserts_nothing (log : Log) (rest : List Log)
    (table : List Row) (hdec : decode_log_data log.data = none) :
    process_log log = ProcOutcome.decodeErr ∧
    handle_logs (log :: rest) table = (table, some ProcOutcome.decodeErr) := by
  have hp : process_log log = ProcOutcome.decodeErr := by
    unfold process_log
    rw [hdec]
  refine ⟨hp, ?_⟩
  unfold handle_logs
  rw [hp]

/-- Witness for C7 at the undecodable log. -/
theorem C7_witness :
    process_log badLog = ProcOutcome.decodeErr ∧
    handle_logs [badLog, fixtureLog] [] = ([], some ProcOutcome.decodeErr) :=
  C7_decode_failure_inserts_nothing badLog [fixtureLog] [] rfl

/-- C8: when every delivered event processes successfully, the loop appends
exactly one row per event, in arrival order, and ends normally; each event's
row is committed before the next event is examined (the loop recurses on the
already-extended table). -/
theorem C8_rows_in_arrival_order (logs : List Log) (table : List Row)
    (hok : ∀ l ∈ logs, rowOfLog l ≠ none) :
    handle_logs logs table = (table ++ logs.filterMap rowOfLog, none) := by
  induction logs generalizing table with
  | nil => simp [handle_logs]
  | cons l rest ih =>
    obtain ⟨row, tr, hp⟩ := rowOfLog_ne_none (hok l (by simp))
    have hrl : rowOfLog l = some row := by unfold rowOfLog; rw [hp]
    unfold handle_logs
    simp only [hp]
    rw [ih (table ++ [row]) (fun x hx => hok x (List.mem_cons_of_mem l hx))]
    simp only [List.filterMap_cons, hrl]
    simp [List.append_assoc]

/-- Witness for C8 at a two-event stream. -/
theorem C8_witness :
    handle_logs [fixtureLog, fixtureLogNoHash] [] =
      ([rowOfCombinedLog fixtureCombined, rowOfCombinedLog fixtureCombinedNoHash],
        none) :=
  C8_rows_in_arrival_order [fixtureLog, fixtureLogNoHash] [] (by decide)

/-- C9: with at least three topics the positional reads of `topics[1]` and
`topics[2]` are in-bounds and processing never hits the out-of-bounds
outcome; with fewer than three topics `topics[2]` does not exist, and any
event whose payload decodes reaches the positional indexing and fails with
the out-of-bounds outcome. -/
theorem C9_topic_bounds (log : Log) :
    (3 ≤ log.topics.length →
      log.topics.get? 1 ≠ none ∧ log.topics.get? 2 ≠ none ∧
      process_log log ≠ ProcOutcome.indexOutOfBounds) ∧
    (log.topics.length < 3 →
      log.topics.get? 2 = none ∧
      ∀ d, decode_log_data log.data = some d →
        process_log log = ProcOutcome.indexOutOfBounds) := by
  constructor
  · intro h3
    have h1 : log.topics.get? 1 ≠ none := fun hc => by
      have := List.get?_eq_none.mp hc; omega
    have h2 : log.topics.get? 2 ≠ none := fun hc => by
      have := List.get?_eq_none.mp hc; omega
    refine ⟨h1, h2, ?_⟩
    unfold process_log
    cases hd : decode_log_data log.data with
    | none => simp
    | some d =>
      cases ht1 : log.topics.get? 1 with
      | none => exact absurd ht1 h1
      | some t1 =>
        cases ht2 : log.topics.get? 2 with
        | none => exact absurd ht2 h2
        | some t2 => simp
  · intro h3
    have h2 : log.topics.get? 2 = none := List.get?_eq_none.mpr (by omega)
    refine ⟨h2, ?_⟩
    intro d hd
    unfold process_log
    rw [hd, h2]
    cases ht1 : log.topics.get? 1 <;> rfl

/-- Witness for C9: the well-formed fixture log and a one-topic log. -/
theorem C9_witness :
    (fixtureLog.topics.get? 1 ≠ none ∧ fixtureLog.topics.get? 2 ≠ none ∧
      process_log fixtureLog ≠ ProcOutcome.indexOutOfBounds) ∧
    (shortTopicsLog.topics.get? 2 = none ∧
      ∀ d, decode_log_data shortTopicsLog.data = some d →
        process_log shortTopicsLog = ProcOutcome.indexOutOfBounds) :=
  ⟨(C9_topic_bounds fixtureLog).1 (by decide),
   (C9_topic_bounds shortTopicsLog).2 (by decide)⟩

/-- C10: processing reads only `topics[1]`, `topics[2]`, the transaction
hash and the payload bytes: two events agreeing on those four fields produce
the same outcome (same stored row and same trace line), whatever their
signature topic, emitting address or block metadata. -/
theorem C10_only_four_fields_matter (l1 l2 : Log)
    (ht1 : l1.topics.get? 1 = l2.topics.get? 1)
    (ht2 : l1.topics.get? 2 = l2.topics.get? 2)
    (hh : l1.transaction_hash = l2.transaction_hash)
    (hd : l1.data = l2.data) :
    process_log l1 = process_log l2 := by
  unfold process_log
  rw [hd, ht1, ht2, hh]

/-- Witness for C10: the fixture log against a log with different signature
topic, emitting address and block metadata. -/
theorem C10_witness : process_log fixtureLog = process_log fixtureLogAltMeta :=
  C10_only_four_fields_matter fixtureLog fixtureLogAltMeta rfl rfl rfl rfl

end SwapMonitor
